import Mathlib

/-!
Verification of the text-clustering pipeline
(`text-clustering-embedding-vs-prompting.ipynb`).

The notebook fetches Wikipedia articles, computes an embedding and a summary
per article via external API calls, clusters the embeddings with k-means,
and separately prompts an LLM to cluster titles+summaries.

Strings are modelled as `List Char` (the underlying data of Lean's `String`),
embedding vectors as `List ℚ`.  External API calls are modelled as explicit
functions returning `Except`.
-/

namespace TextClustering

/-- Document record built by the fetch loop: `{ "title": ..., "text": ... }`,
with the `embedding` and `summary` fields added later by the two
per-article loops (absent fields are `none`). -/
structure Article where
  title : List Char
  text : List Char
  embedding : Option (List ℚ) := none
  summary : Option (List Char) := none
deriving DecidableEq, Repr

/-! ## Truncation at the provider boundary (embedding and summarization calls) -/

/-- Input sent to the embedding endpoint: `article["text"][:5555]`. -/
def embedRequestInput (a : Article) : List Char :=
  a.text.take 5555

/-- Article text spliced into the summarization prompt: `article["text"][:9999]`. -/
def summaryRequestText (a : Article) : List Char :=
  a.text.take 9999

/-- User message of the summarization request:
`f"Read the following article and write a short summary of it.\n\nTitle:\n{title}\nArticle:\n{text[:9999]}"`. -/
def summaryUserContent (a : Article) : List Char :=
  ("Read the following article and write a short summary of it."
    ++ "\x0a\x0aTitle:\x0a").toList
  ++ a.title
  ++ ("\x0aArticle:\x0a").toList
  ++ summaryRequestText a

/-! ## The two sequential per-article provider loops

The notebook runs `for article in articles:` twice, once calling the
embedding endpoint and once the summarization endpoint, with no exception
handling.  We model a provider call as a function into `Except` and the
loop as structural recursion that stops at the first error.  The second
component of the result records which articles the provider was actually
called on. -/

/-- Embedding loop: sets `article["embedding"]` for each article in order;
an error from the provider aborts the whole loop.  Returns the outcome and
the list of articles the provider was invoked on. -/
def runEmbedLoop {E : Type} (f : Article → Except E (List ℚ)) :
    List Article → Except E (List Article) × List Article
  | [] => (Except.ok [], [])
  | a :: as =>
    match f a with
    | Except.error e => (Except.error e, [a])
    | Except.ok v =>
      match runEmbedLoop f as with
      | (Except.error e, called) => (Except.error e, a :: called)
      | (Except.ok rest, called) =>
          (Except.ok ({ a with embedding := some v } :: rest), a :: called)

/-- Summarization loop: sets `article["summary"]` for each article in order;
an error from the provider aborts the whole loop.  Returns the outcome and
the list of articles the provider was invoked on. -/
def runSummaryLoop {E : Type} (g : Article → Except E (List Char)) :
    List Article → Except E (List Article) × List Article
  | [] => (Except.ok [], [])
  | a :: as =>
    match g a with
    | Except.error e => (Except.error e, [a])
    | Except.ok s =>
      match runSummaryLoop g as with
      | (Except.error e, called) => (Except.error e, a :: called)
      | (Except.ok rest, called) =>
          (Except.ok ({ a with summary := some s } :: rest), a :: called)

/-! ## LLM clustering request construction -/

/-- System message of the clustering request (gpt-4 cell). -/
def clusterSystemContent : List Char :=
  ("You are an expert encyclopedia editor. "
    ++ "Your task is to read through the summaries of Wikipedia articles, "
    ++ "and assign them to one of seven clusters. ").toList

/-- Leading part of the user message of the clustering request: the task
statement and the exact output format, ending just before the article list. -/
def clusterInstructions : List Char :=
  ("The following are titles and summaries of Wikipedia articles. "
    ++ "Read the summaries. For each article, come up with a few tags that would "
    ++ "describe the cluster it belongs to. "
    ++ "Then assign the article to one of exactly 7 clusters (from Cluster 1 to Cluster 7), "
    ++ "based on their topics. It is very important that you only assign each article to one cluster. "
    ++ "You must have exactly 7 clusters, and each cluster must have at least two articles assigned to it. "
    ++ "Your final output should follow the format:\x0a"
    ++ "Cluster N: Cluster Title\x0a"
    ++ " - First Article Title\x0a"
    ++ " - Second Article Title\x0a"
    ++ "etc...\x0a\x0a\x0a").toList

/-- Per-article fragment of the user message:
`f"Title: {article['title']}\nSummary: {article['summary']}\n\n"`. -/
def articlePairText (a : Article) : List Char :=
  ("Title: ").toList ++ a.title ++ ("\x0aSummary: ").toList
    ++ a.summary.getD [] ++ ("\x0a\x0a").toList

/-- Python's `sep.join(parts)`. -/
def joinParts (sep : List Char) : List (List Char) → List Char
  | [] => []
  | [x] => x
  | x :: y :: ys => x ++ sep ++ joinParts sep (y :: ys)

/-- User message of the clustering request: the instruction block followed by
`"\n".join(f"Title: ...\nSummary: ...\n\n" for article in articles)`. -/
def clusterUserContent (articles : List Article) : List Char :=
  clusterInstructions ++ joinParts [Char.ofNat 10] (articles.map articlePairText)

/-- One chat message of a request. -/
structure ChatMessage where
  role : List Char
  content : List Char
deriving DecidableEq, Repr

/-- The single clustering request sent to the LLM: a system message and one
user message. -/
def clusterRequest (articles : List Article) : List ChatMessage :=
  [⟨("system").toList, clusterSystemContent⟩,
   ⟨("user").toList, clusterUserContent articles⟩]

/-- Proposition that each of `parts` occurs in `s`, in the given order,
without overlap. -/
def containsInOrder : List Char → List (List Char) → Prop
  | _, [] => True
  | s, p :: ps => ∃ pre suf, s = pre ++ p ++ suf ∧ containsInOrder suf ps

/-! ## The LLM response reader

Modelled from the spec: the source contains no parsing code (the notebook
only prints the raw LLM response), but the spec requires the response to be
parsed into a cluster_id-to-(label, member titles) structure by recognizing
lines of the form "Cluster N: Label" as cluster headers and subsequent
bullet lines as members, matched back to the input Documents by exact title
string, with `ParseError`, `ReferenceError` and `ConstraintViolation`
failure modes. -/

/-- Split a character list on a separator character (Python `str.split`). -/
def splitOnChar (c : Char) : List Char → List (List Char)
  | [] => [[]]
  | x :: xs =>
    match splitOnChar c xs with
    | [] => if x = c then [[], []] else [[x]]
    | r :: rs => if x = c then [] :: r :: rs else (x :: r) :: rs

/-- Drop an expected leading pattern from a line, or fail. -/
def dropPattern : List Char → List Char → Option (List Char)
  | [], l => some l
  | _ :: _, [] => none
  | p :: ps, b :: bs => if p = b then dropPattern ps bs else none

/-- Numeric value of a digit string. -/
def natOfDigits (ds : List Char) : Nat :=
  ds.foldl (fun n c => n * 10 + (c.toNat - 48)) 0

/-- Recognize a cluster header line "Cluster N: Label", returning the cluster
number and the label (with leading spaces after the colon dropped). -/
def readHeaderLine (l : List Char) : Option (Nat × List Char) :=
  match dropPattern ("Cluster ").toList l with
  | none => none
  | some rest =>
    match rest.takeWhile Char.isDigit, rest.dropWhile Char.isDigit with
    | [], _ => none
    | ds, after =>
      match after with
      | ':' :: rest2 => some (natOfDigits ds, rest2.dropWhile (fun c => c = ' '))
      | _ => none

/-- Recognize a bullet member line " - Title", returning the title text. -/
def readBulletLine (l : List Char) : Option (List Char) :=
  dropPattern (" - ").toList l

/-- One parsed cluster: id, label, member titles in order of appearance. -/
structure ClusterEntry where
  cid : Nat
  label : List Char
  members : List (List Char)
deriving DecidableEq, Repr

/-- Issues surfaced by the response reader, per the spec's error taxonomy. -/
inductive ParseIssue where
  | parseError (line : List Char)
  | referenceError (title : List Char)
  | constraintViolation
deriving DecidableEq, Repr

/-- Reader state: the cluster currently accumulating members, the completed
clusters in order, and the issues raised so far. -/
structure ReadState where
  current : Option ClusterEntry
  done : List ClusterEntry
  errors : List ParseIssue
deriving DecidableEq, Repr

/-- Cluster-building part of processing one line: a header line closes the
current cluster and opens a new one; a bullet line whose title matches an
input title joins the current cluster; every other line (including a bullet
with an unknown title, which is excluded) leaves the clusters unchanged. -/
def stepCD (titles : List (List Char))
    (cd : Option ClusterEntry × List ClusterEntry) (line : List Char) :
    Option ClusterEntry × List ClusterEntry :=
  match readHeaderLine line with
  | some (n, lab) => (some ⟨n, lab, []⟩, cd.2 ++ cd.1.toList)
  | none =>
    match readBulletLine line with
    | some t =>
      if titles.contains t then
        match cd.1 with
        | some c => (some { c with members := c.members ++ [t] }, cd.2)
        | none => cd
      else cd
    | none => cd

/-- Issues raised by processing one line: a bullet with an unknown title
raises `referenceError`; a known-title bullet before any header, or any
other non-empty unrecognized line, raises `parseError`; header lines,
known-title bullets under a header, and empty lines raise nothing. -/
def newIssues (titles : List (List Char)) (cur : Option ClusterEntry)
    (line : List Char) : List ParseIssue :=
  match readHeaderLine line with
  | some _ => []
  | none =>
    match readBulletLine line with
    | some t =>
      if titles.contains t then
        match cur with
        | some _ => []
        | none => [ParseIssue.parseError line]
      else [ParseIssue.referenceError t]
    | none =>
      if line = [] then [] else [ParseIssue.parseError line]

/-- Process one line of the response: update the clusters being built and
append any issue the line raises. -/
def stepLine (titles : List (List Char)) (st : ReadState) (line : List Char) :
    ReadState :=
  ⟨(stepCD titles (st.current, st.done) line).1,
   (stepCD titles (st.current, st.done) line).2,
   st.errors ++ newIssues titles st.current line⟩

/-- Result of reading a response: parsed clusters and the issues raised. -/
structure ReadResult where
  clusters : List ClusterEntry
  errors : List ParseIssue
deriving DecidableEq, Repr

/-- Parse a free-text LLM clustering response against the input titles. -/
def parseResponse (titles : List (List Char)) (resp : List Char) : ReadResult :=
  let st := (splitOnChar (Char.ofNat 10) resp).foldl (stepLine titles) ⟨none, [], []⟩
  ⟨st.done ++ st.current.toList, st.errors⟩

/-- Number of parsed clusters whose member list mentions a title. -/
def countAssignments (clusters : List ClusterEntry) (t : List Char) : Nat :=
  (clusters.filter (fun c => c.members.contains t)).length

/-- Post-hoc validation of a parse result against the input titles and the
requested cluster count `K`: raises `constraintViolation` when fewer than
`K` clusters were produced and for every title assigned to a number of
clusters other than one. -/
def validateResult (titles : List (List Char)) (K : Nat) (r : ReadResult) :
    ReadResult :=
  ⟨r.clusters,
    r.errors
      ++ (if r.clusters.length < K then [ParseIssue.constraintViolation] else [])
      ++ titles.filterMap (fun t =>
            if countAssignments r.clusters t ≠ 1 then
              some ParseIssue.constraintViolation
            else none)⟩

/-- Full response handling: parse, then validate. -/
def parseAndValidate (titles : List (List Char)) (K : Nat) (resp : List Char) :
    ReadResult :=
  validateResult titles K (parseResponse titles resp)

/-- Predicate for a line that is a bullet with a title not among the input
titles (and is not a header line). -/
def isUnknownBullet (titles : List (List Char)) (l : List Char) : Bool :=
  (readHeaderLine l).isNone &&
    (match readBulletLine l with
     | some t => !(titles.contains t)
     | none => false)

/-- The same response with every unknown-title bullet line deleted. -/
def dropUnknownBullets (titles : List (List Char)) (resp : List Char) :
    List (List Char) :=
  (splitOnChar (Char.ofNat 10) resp).filter (fun l => !(isUnknownBullet titles l))

/-- Parse a response given directly as a list of lines. -/
def parseLines (titles : List (List Char)) (lines : List (List Char)) :
    ReadResult :=
  let st := lines.foldl (stepLine titles) ⟨none, [], []⟩
  ⟨st.done ++ st.current.toList, st.errors⟩

/-! ## Vector Clustering Engine

Modelled from the spec: the notebook invokes the scikit-learn `KMeans`
library (`KMeans(n_clusters=7, random_state=0, n_init=10).fit(embeddings)`)
whose implementation is not part of this repository.  Following the spec's
contract for the Vector Clustering Engine: an iterative relocation (Lloyd)
algorithm with seed-driven deterministic centroid initialization, multiple
(`n_init = 10`) restarts keeping the best-scoring labelling, bounded
iteration, ties broken by centroid initialization order, an empty-cluster
repair step (so the returned labelling uses all K clusters and does not
diverge on duplicate vectors), and an `InvalidConfiguration` failure for K
outside `1 ≤ K ≤ N`.  Coordinates are exact integers and centroids exact
unreduced fractions, so every run is computable by kernel reduction. -/

/-- Embedding vector: exact integer coordinates stand in for the floating
point embedding values (floating point itself has no shallow embedding; all
arithmetic below is exact, so the partition contract is unaffected). -/
abbrev Vec := List Int

/-- An exact centroid: the componentwise sum of the member vectors together
with the member count, representing their mean `sum / count` without any
rounding. -/
abbrev Centroid := Vec × Nat

/-- An exact unreduced fraction `num / den`. -/
abbrev Frac := Int × Int

/-- Fraction comparison by cross-multiplication. -/
def fracLt (p q : Frac) : Bool :=
  decide (p.1 * q.2 < q.1 * p.2)

/-- Fraction addition without reduction. -/
def fracAdd (p q : Frac) : Frac :=
  (p.1 * q.2 + q.1 * p.2, p.2 * q.2)

/-- Numerator of the squared euclidean distance from `x` to the mean stored
in centroid `c`: `‖count·x - sum‖²`. -/
def sqDistNum (x : Vec) (c : Centroid) : Int :=
  (List.zipWith (fun a s => (c.2 : Int) * a - s) x c.1).foldl
    (fun acc d => acc + d * d) 0

/-- Squared euclidean distance from `x` to the mean stored in centroid `c`,
as the exact fraction `‖count·x - sum‖² / count²`. -/
def distFrac (x : Vec) (c : Centroid) : Frac :=
  (sqDistNum x c, (c.2 : Int) * (c.2 : Int))

/-- Index of the least element; on ties the earliest index wins
(ties broken by centroid initialization order). -/
def argminAux : List Frac → Nat → Nat → Frac → Nat
  | [], _, best, _ => best
  | x :: xs, i, best, bv =>
    if fracLt x bv then argminAux xs (i + 1) i x
    else argminAux xs (i + 1) best bv

/-- Label of the centroid nearest to `x`. -/
def assignLabel (cents : List Centroid) (x : Vec) : Nat :=
  match cents with
  | [] => 0
  | c :: cs => argminAux (cs.map (distFrac x)) 1 0 (distFrac x c)

/-- Componentwise vector addition. -/
def vecAdd (u v : Vec) : Vec := List.zipWith (fun a b => a + b) u v

/-- Exact mean of a cluster's members as a (sum, count) centroid; an empty
cluster keeps its old centroid. -/
def centroidOf (old : Centroid) (members : List Vec) : Centroid :=
  match members with
  | [] => old
  | m :: ms => (ms.foldl vecAdd m, ms.length + 1)

/-- Data points currently labelled `j`. -/
def membersOf (data : List Vec) (labels : List Nat) (j : Nat) : List Vec :=
  (data.zip labels).filterMap (fun p => if p.2 = j then some p.1 else none)

/-- One Lloyd relocation step: reassign points to nearest centroids, then
move each centroid to the mean of its members. -/
def updateCentroids (data : List Vec) (cents : List Centroid) : List Centroid :=
  (List.range cents.length).map (fun j =>
    centroidOf (cents.getD j ([], 1))
      (membersOf data (data.map (assignLabel cents)) j))

/-- Iterate Lloyd steps a bounded number of times. -/
def lloydIter : Nat → List Vec → List Centroid → List Centroid
  | 0, _, cents => cents
  | n + 1, data, cents => lloydIter n data (updateCentroids data cents)

/-- Iteration bound of the relocation loop (the specific bound is immaterial
to the partition contract). -/
def kmeansMaxIter : Nat := 20

/-- Seed-driven initial centroids: rotate the data by the seed and take the
first K points, each as a singleton-cluster centroid. -/
def initCentroids (seed K : Nat) (data : List Vec) : List Centroid :=
  ((data.drop (seed % data.length) ++ data.take (seed % data.length)).take
    K).map (fun x => (x, 1))

/-- Indices of points that are not the first of their cluster (safe to move
to an empty cluster). -/
def surplusIndices (labels : List Nat) : List Nat :=
  (List.range labels.length).filter
    (fun i => decide (labels.getD i 0 ∈ labels.take i))

/-- Cluster ids in `[0, K)` that received no point. -/
def missingClusters (K : Nat) (labels : List Nat) : List Nat :=
  (List.range K).filter (fun j => !(decide (j ∈ labels)))

/-- Empty-cluster repair: move one surplus point into each empty cluster, in
cluster order. -/
def repairLabels (K : Nat) (labels : List Nat) : List Nat :=
  ((missingClusters K labels).zip (surplusIndices labels)).foldl
    (fun ls p => ls.set p.2 p.1) labels

/-- Sum of squared distances of each point to its assigned centroid. -/
def inertiaOf (data : List Vec) (cents : List Centroid) (labels : List Nat) :
    Frac :=
  ((data.zip labels).map (fun p => distFrac p.1 (cents.getD p.2 ([], 1)))).foldl
    fracAdd (0, 1)

/-- One full k-means run for one seed: labelling and its score. -/
def kmeansOnce (seed K : Nat) (data : List Vec) : List Nat × Frac :=
  let cents := lloydIter kmeansMaxIter data (initCentroids seed K data)
  let labels := repairLabels K (data.map (assignLabel cents))
  (labels, inertiaOf data cents labels)

/-- Keep the best-scoring candidate (ties keep the earlier one). -/
def pickBest (c : List Nat × Frac) : List (List Nat × Frac) → List Nat × Frac
  | [] => c
  | x :: xs => if fracLt x.2 c.2 then pickBest x xs else pickBest c xs

/-- Number of random restarts (`n_init=10` in the notebook's call). -/
def kmeansNInit : Nat := 10

/-- Labelling returned by the engine: the best of `kmeansNInit` runs with
consecutive derived seeds. -/
def kmeansLabels (seed K : Nat) (data : List Vec) : List Nat :=
  (pickBest (kmeansOnce seed K data)
    ((List.range (kmeansNInit - 1)).map
      (fun t => kmeansOnce (seed + t + 1) K data))).1

/-- Failure mode of the Vector Clustering Engine. -/
inductive KMeansError where
  | invalidConfiguration
deriving DecidableEq, Repr

/-- Entry point of the Vector Clustering Engine: validates the
configuration, then clusters.  `labels[i]` is the cluster of `data[i]`. -/
def kmeansFit (seed K : Nat) (data : List Vec) :
    Except KMeansError (List Nat) :=
  if K = 0 ∨ data.length < K then Except.error KMeansError.invalidConfiguration
  else Except.ok (kmeansLabels seed K data)

end TextClustering

deriving instance DecidableEq for Except

namespace TextClustering

/-! ## Helper lemmas -/

theorem containsInOrder_append_left {s : List Char} {ps : List (List Char)}
    (t : List Char) (h : containsInOrder s ps) : containsInOrder (t ++ s) ps := by
  cases ps with
  | nil => trivial
  | cons p ps =>
    obtain ⟨pre, suf, hs, hrest⟩ := h
    exact ⟨t ++ pre, suf, by rw [hs]; simp, hrest⟩

theorem joinParts_containsInOrder (sep : List Char) :
    ∀ parts, containsInOrder (joinParts sep parts) parts
  | [] => trivial
  | [x] => ⟨[], [], by simp [joinParts], trivial⟩
  | x :: y :: ys =>
    ⟨[], sep ++ joinParts sep (y :: ys), by simp [joinParts],
      containsInOrder_append_left sep (joinParts_containsInOrder sep (y :: ys))⟩

/-! ## Claim theorems: truncation and request construction -/

/-- C7: the text handed to the embedding call is the caller-truncated prefix
of the document text of length at most 5555 (exactly `min 5555 |text|`),
and the text spliced into the summarization prompt is likewise a
caller-truncated prefix of length at most 9999. -/
theorem embed_and_summary_inputs_truncated (a : Article) :
    (∃ r, a.text = embedRequestInput a ++ r)
    ∧ (embedRequestInput a).length = min 5555 a.text.length
    ∧ (∃ pre r, summaryUserContent a = pre ++ summaryRequestText a ++ r)
    ∧ (∃ r, a.text = summaryRequestText a ++ r)
    ∧ (summaryRequestText a).length = min 9999 a.text.length := by
  refine ⟨⟨a.text.drop 5555, (List.take_append_drop 5555 a.text).symm⟩,
    List.length_take 5555 a.text,
    ⟨("Read the following article and write a short summary of it."
        ++ "\x0a\x0aTitle:\x0a").toList ++ a.title ++ ("\x0aArticle:\x0a").toList,
      [], by simp [summaryUserContent]⟩,
    ⟨a.text.drop 9999, (List.take_append_drop 9999 a.text).symm⟩,
    List.length_take 9999 a.text⟩

/-- C8: the LLM Clustering Orchestrator builds exactly one request of two
messages, a system instruction and a user instruction; the user instruction
starts with the block enumerating the exact output format and then contains
every per-article "Title: ...\nSummary: ...\n\n" fragment in input order. -/
theorem cluster_request_structure (articles : List Article) :
    ∃ m1 m2, clusterRequest articles = [m1, m2]
      ∧ m1.role = ("system").toList ∧ m1.content = clusterSystemContent
      ∧ m2.role = ("user").toList
      ∧ ∃ suf, m2.content = clusterInstructions ++ suf
          ∧ containsInOrder suf (articles.map articlePairText) := by
  refine ⟨_, _, rfl, rfl, rfl, rfl,
    joinParts [Char.ofNat 10] (articles.map articlePairText), rfl,
    joinParts_containsInOrder _ _⟩

/-! ## Helper lemmas: the two provider loops -/

theorem runEmbedLoop_ok_frame {E : Type} (f : Article → Except E (List ℚ)) :
    ∀ (docs res called : List Article),
      runEmbedLoop f docs = (Except.ok res, called) →
      res.length = docs.length ∧
      ∀ i (hi : i < docs.length) (hr : i < res.length),
        (res.get ⟨i, hr⟩).title = (docs.get ⟨i, hi⟩).title
        ∧ (res.get ⟨i, hr⟩).text = (docs.get ⟨i, hi⟩).text
        ∧ (res.get ⟨i, hr⟩).summary = (docs.get ⟨i, hi⟩).summary
        ∧ ∃ v, f (docs.get ⟨i, hi⟩) = Except.ok v
            ∧ (res.get ⟨i, hr⟩).embedding = some v
  | [], res, called, h => by
    simp only [runEmbedLoop, Prod.mk.injEq, Except.ok.injEq] at h
    refine ⟨by simp [← h.1], ?_⟩
    intro i hi
    simp at hi
  | a :: as, res, called, h => by
    unfold runEmbedLoop at h
    cases hfa : f a with
    | error e => rw [hfa] at h; simp at h
    | ok v =>
      rw [hfa] at h
      cases hrec : runEmbedLoop f as with
      | mk r2 c2 =>
        rw [hrec] at h
        cases r2 with
        | error e => simp at h
        | ok rest =>
          simp only [Prod.mk.injEq, Except.ok.injEq] at h
          obtain ⟨hres, -⟩ := h
          obtain ⟨hlen, hidx⟩ := runEmbedLoop_ok_frame f as rest c2 (by rw [hrec])
          subst hres
          refine ⟨by simp [hlen], ?_⟩
          intro i hi hr
          cases i with
          | zero => exact ⟨rfl, rfl, rfl, v, hfa, rfl⟩
          | succ n =>
            simp only [List.length_cons, Nat.succ_lt_succ_iff] at hi hr
            simpa using hidx n hi hr

theorem runSummaryLoop_ok_frame {E : Type} (g : Article → Except E (List Char)) :
    ∀ (docs res called : List Article),
      runSummaryLoop g docs = (Except.ok res, called) →
      res.length = docs.length ∧
      ∀ i (hi : i < docs.length) (hr : i < res.length),
        (res.get ⟨i, hr⟩).title = (docs.get ⟨i, hi⟩).title
        ∧ (res.get ⟨i, hr⟩).text = (docs.get ⟨i, hi⟩).text
        ∧ (res.get ⟨i, hr⟩).embedding = (docs.get ⟨i, hi⟩).embedding
        ∧ ∃ s, g (docs.get ⟨i, hi⟩) = Except.ok s
            ∧ (res.get ⟨i, hr⟩).summary = some s
  | [], res, called, h => by
    simp only [runSummaryLoop, Prod.mk.injEq, Except.ok.injEq] at h
    refine ⟨by simp [← h.1], ?_⟩
    intro i hi
    simp at hi
  | a :: as, res, called, h => by
    unfold runSummaryLoop at h
    cases hga : g a with
    | error e => rw [hga] at h; simp at h
    | ok s =>
      rw [hga] at h
      cases hrec : runSummaryLoop g as with
      | mk r2 c2 =>
        rw [hrec] at h
        cases r2 with
        | error e => simp at h
        | ok rest =>
          simp only [Prod.mk.injEq, Except.ok.injEq] at h
          obtain ⟨hres, -⟩ := h
          obtain ⟨hlen, hidx⟩ := runSummaryLoop_ok_frame g as rest c2 (by rw [hrec])
          subst hres
          refine ⟨by simp [hlen], ?_⟩
          intro i hi hr
          cases i with
          | zero => exact ⟨rfl, rfl, rfl, s, hga, rfl⟩
          | succ n =>
            simp only [List.length_cons, Nat.succ_lt_succ_iff] at hi hr
            simpa using hidx n hi hr

/-! ## Helper lemmas: the response reader -/

theorem foldl_stepLine_cd (titles : List (List Char)) :
    ∀ (lines : List (List Char)) (st : ReadState),
      ((lines.foldl (stepLine titles) st).current,
        (lines.foldl (stepLine titles) st).done)
      = lines.foldl (stepCD titles) (st.current, st.done)
  | [], st => rfl
  | l :: ls, st => by
    have h := foldl_stepLine_cd titles ls (stepLine titles st l)
    simpa [stepLine] using h

theorem foldl_stepLine_errors_mono (titles : List (List Char)) :
    ∀ (lines : List (List Char)) (st : ReadState) (e : ParseIssue),
      e ∈ st.errors → e ∈ (lines.foldl (stepLine titles) st).errors
  | [], _, _, h => h
  | l :: ls, st, e, h =>
    foldl_stepLine_errors_mono titles ls (stepLine titles st l) e
      (List.mem_append_left _ h)

theorem stepCD_unknown (titles : List (List Char))
    (cd : Option ClusterEntry × List ClusterEntry) (line : List Char)
    (h : isUnknownBullet titles line = true) : stepCD titles cd line = cd := by
  unfold isUnknownBullet at h
  rw [Bool.and_eq_true] at h
  obtain ⟨h1, h2⟩ := h
  rw [Option.isNone_iff_eq_none] at h1
  cases hb : readBulletLine line with
  | none => rw [hb] at h2; simp at h2
  | some t =>
    rw [hb] at h2
    simp only [Bool.not_eq_true'] at h2
    have hmem : t ∉ titles := by simpa using h2
    simp [stepCD, h1, hb, hmem]

theorem newIssues_unknown (titles : List (List Char))
    (cur : Option ClusterEntry) (line t : List Char)
    (hh : readHeaderLine line = none) (hb : readBulletLine line = some t)
    (hc : titles.contains t = false) :
    newIssues titles cur line = [ParseIssue.referenceError t] := by
  have hmem : t ∉ titles := by simpa using hc
  simp [newIssues, hh, hb, hmem]

theorem foldl_stepCD_filter (titles : List (List Char)) :
    ∀ (lines : List (List Char)) (cd : Option ClusterEntry × List ClusterEntry),
      lines.foldl (stepCD titles) cd
      = (lines.filter (fun l => !(isUnknownBullet titles l))).foldl
          (stepCD titles) cd
  | [], _ => rfl
  | l :: ls, cd => by
    by_cases hu : isUnknownBullet titles l = true
    · rw [List.filter_cons_of_neg (by simp [hu])]
      show (ls.foldl (stepCD titles) (stepCD titles cd l)) = _
      rw [stepCD_unknown titles cd l hu]
      exact foldl_stepCD_filter titles ls cd
    · rw [List.filter_cons_of_pos (by simp [Bool.not_eq_true] at hu; simp [hu])]
      show (ls.foldl (stepCD titles) (stepCD titles cd l)) = _
      exact foldl_stepCD_filter titles ls (stepCD titles cd l)

theorem parseLines_clusters_eq_filter (titles : List (List Char))
    (lines : List (List Char)) :
    (parseLines titles lines).clusters
    = (parseLines titles
        (lines.filter (fun l => !(isUnknownBullet titles l)))).clusters := by
  unfold parseLines
  have h1 := foldl_stepLine_cd titles lines ⟨none, [], []⟩
  have h2 := foldl_stepLine_cd titles
    (lines.filter (fun l => !(isUnknownBullet titles l))) ⟨none, [], []⟩
  have h3 := foldl_stepCD_filter titles lines (none, [])
  have hpair := h1.trans (h3.trans h2.symm)
  rw [Prod.mk.injEq] at hpair
  obtain ⟨hc, hd⟩ := hpair
  simp only
  rw [hc, hd]

/-! ## Claim theorems: the response reader -/

/-- C4: on the spec's well-formed sample response, with the three document
titles as input, the reader yields exactly cluster 1 labelled "Test" with
members [Doc A, Doc B] and cluster 2 labelled "Other" with member [Doc C],
raising no issues. -/
theorem sample_response_parsed :
    parseResponse [("Doc A").toList, ("Doc B").toList, ("Doc C").toList]
      ("Cluster 1: Test\n - Doc A\n - Doc B\n\nCluster 2: Other\n - Doc C\n").toList
    = ⟨[⟨1, ("Test").toList, [("Doc A").toList, ("Doc B").toList]⟩,
        ⟨2, ("Other").toList, [("Doc C").toList]⟩], []⟩ := by decide

/-- C5: whenever the response contains a bullet line whose title matches no
input title, the reader raises `referenceError` for that title, and the
clusters it returns are exactly those of the response with all
unknown-title bullets deleted (the entry is excluded, all remaining valid
assignments are kept). -/
theorem unknown_title_reference_error (titles : List (List Char))
    (resp line t : List Char)
    (hline : line ∈ splitOnChar (Char.ofNat 10) resp)
    (hh : readHeaderLine line = none)
    (hb : readBulletLine line = some t)
    (hc : titles.contains t = false) :
    ParseIssue.referenceError t ∈ (parseResponse titles resp).errors
    ∧ (parseResponse titles resp).clusters
        = (parseLines titles (dropUnknownBullets titles resp)).clusters := by
  constructor
  · obtain ⟨pre, post, hsplit⟩ := List.append_of_mem hline
    show ParseIssue.referenceError t
      ∈ ((splitOnChar (Char.ofNat 10) resp).foldl (stepLine titles)
          ⟨none, [], []⟩).errors
    rw [hsplit, List.foldl_append]
    apply foldl_stepLine_errors_mono titles ((line :: post).drop 1)
    show ParseIssue.referenceError t ∈ (stepLine titles _ line).errors
    rw [stepLine]
    rw [newIssues_unknown titles _ line t hh hb hc]
    exact List.mem_append_right _ (by simp)
  · exact parseLines_clusters_eq_filter titles (splitOnChar (Char.ofNat 10) resp)

/-- Witness for C5: a response assigning the unknown title "Doc Z". -/
theorem unknown_title_reference_error_witness :
    ParseIssue.referenceError (("Doc Z").toList)
      ∈ (parseResponse [("Doc A").toList]
          ("Cluster 1: Test\n - Doc A\n - Doc Z\n").toList).errors
    ∧ (parseResponse [("Doc A").toList]
        ("Cluster 1: Test\n - Doc A\n - Doc Z\n").toList).clusters
      = (parseLines [("Doc A").toList]
          (dropUnknownBullets [("Doc A").toList]
            ("Cluster 1: Test\n - Doc A\n - Doc Z\n").toList)).clusters :=
  unknown_title_reference_error [("Doc A").toList]
    ("Cluster 1: Test\n - Doc A\n - Doc Z\n").toList
    (" - Doc Z").toList (("Doc Z").toList)
    (by decide) (by decide) (by decide) (by decide)

/-- C6: whenever the parsed response assigns some input title to a number
of clusters other than one, or produces fewer than the K requested
clusters, validation surfaces a `constraintViolation`. -/
theorem constraint_violation_surfaced (titles : List (List Char)) (K : Nat)
    (resp : List Char)
    (h : (parseResponse titles resp).clusters.length < K
        ∨ ∃ t ∈ titles,
            countAssignments (parseResponse titles resp).clusters t ≠ 1) :
    ParseIssue.constraintViolation ∈ (parseAndValidate titles K resp).errors := by
  show ParseIssue.constraintViolation
    ∈ (parseResponse titles resp).errors
      ++ (if (parseResponse titles resp).clusters.length < K
          then [ParseIssue.constraintViolation] else [])
      ++ titles.filterMap (fun t =>
            if countAssignments (parseResponse titles resp).clusters t ≠ 1 then
              some ParseIssue.constraintViolation
            else none)
  rcases h with h | ⟨t, ht, hcount⟩
  · apply List.mem_append_left
    apply List.mem_append_right
    simp [h]
  · apply List.mem_append_right
    exact List.mem_filterMap.mpr ⟨t, ht, by simp [hcount]⟩

/-- Witness for C6: only 6 of 7 requested clusters are produced. -/
theorem constraint_violation_surfaced_witness :
    ParseIssue.constraintViolation
      ∈ (parseAndValidate
          [("T1").toList, ("T2").toList, ("T3").toList,
            ("T4").toList, ("T5").toList, ("T6").toList] 7
          ("Cluster 1: A\n - T1\nCluster 2: B\n - T2\nCluster 3: C\n - T3\nCluster 4: D\n - T4\nCluster 5: E\n - T5\nCluster 6: F\n - T6\n").toList).errors :=
  constraint_violation_surfaced
    [("T1").toList, ("T2").toList, ("T3").toList,
      ("T4").toList, ("T5").toList, ("T6").toList] 7
    ("Cluster 1: A\n - T1\nCluster 2: B\n - T2\nCluster 3: C\n - T3\nCluster 4: D\n - T4\nCluster 5: E\n - T5\nCluster 6: F\n - T6\n").toList
    (Or.inl (by decide))

/-! ## Claim theorems: loop failure and frame behaviour -/

/-- C9: in both per-document loops a single provider failure halts the
whole batch: with successful calls on the documents before the failing one,
the loop returns that error, the provider is invoked on exactly the
documents up to and including the failing one, and no result list is
produced for the remaining documents. -/
theorem provider_failure_halts_batch {E : Type}
    (f : Article → Except E (List ℚ)) (g : Article → Except E (List Char))
    (pre post : List Article) (bad : Article) (e1 e2 : E)
    (hpre1 : ∀ a ∈ pre, ∃ v, f a = Except.ok v)
    (hbad1 : f bad = Except.error e1)
    (hpre2 : ∀ a ∈ pre, ∃ s, g a = Except.ok s)
    (hbad2 : g bad = Except.error e2) :
    runEmbedLoop f (pre ++ bad :: post) = (Except.error e1, pre ++ [bad])
    ∧ runSummaryLoop g (pre ++ bad :: post) = (Except.error e2, pre ++ [bad]) := by
  induction pre with
  | nil => simp [runEmbedLoop, runSummaryLoop, hbad1, hbad2]
  | cons a rest ih =>
    obtain ⟨v, hv⟩ := hpre1 a (by simp)
    obtain ⟨s, hs⟩ := hpre2 a (by simp)
    obtain ⟨ih1, ih2⟩ := ih (fun x hx => hpre1 x (by simp [hx]))
      (fun x hx => hpre2 x (by simp [hx]))
    constructor
    · show runEmbedLoop f (a :: (rest ++ bad :: post)) = _
      unfold runEmbedLoop
      rw [hv, ih1]
      rfl
    · show runSummaryLoop g (a :: (rest ++ bad :: post)) = _
      unfold runSummaryLoop
      rw [hs, ih2]
      rfl

/-- Witness for C9 at a concrete failing provider call. -/
theorem provider_failure_halts_batch_witness :
    runEmbedLoop (fun _ => Except.error ()) [⟨("A").toList, ("x").toList, none, none⟩]
      = (Except.error (), [⟨("A").toList, ("x").toList, none, none⟩])
    ∧ runSummaryLoop (fun _ => Except.error ()) [⟨("A").toList, ("x").toList, none, none⟩]
      = (Except.error (), [⟨("A").toList, ("x").toList, none, none⟩]) := by
  have h := provider_failure_halts_batch (E := Unit)
    (fun _ => Except.error ()) (fun _ => Except.error ())
    [] [] ⟨("A").toList, ("x").toList, none, none⟩ () ()
    (by intro a ha; simp at ha) rfl (by intro a ha; simp at ha) rfl
  simpa using h

/-- C10: the two per-document loops only add the `embedding` and `summary`
fields: when the embedding loop and then the summarization loop both
succeed, the resulting list has the same length and order as the input, and
for every position the `title` and `text` fields are unchanged while
`embedding` and `summary` have been populated. -/
theorem loops_preserve_title_text_order {E : Type}
    (f : Article → Except E (List ℚ)) (g : Article → Except E (List Char))
    (docs res1 res2 called1 called2 : List Article)
    (h1 : runEmbedLoop f docs = (Except.ok res1, called1))
    (h2 : runSummaryLoop g res1 = (Except.ok res2, called2)) :
    res1.length = docs.length ∧ res2.length = docs.length ∧
    ∀ i (hi : i < docs.length) (h2i : i < res2.length),
      (res2.get ⟨i, h2i⟩).title = (docs.get ⟨i, hi⟩).title
      ∧ (res2.get ⟨i, h2i⟩).text = (docs.get ⟨i, hi⟩).text
      ∧ (∃ v, (res2.get ⟨i, h2i⟩).embedding = some v)
      ∧ (∃ s, (res2.get ⟨i, h2i⟩).summary = some s) := by
  obtain ⟨hlen1, hidx1⟩ := runEmbedLoop_ok_frame f docs res1 called1 h1
  obtain ⟨hlen2, hidx2⟩ := runSummaryLoop_ok_frame g res1 res2 called2 h2
  refine ⟨hlen1, hlen2.trans hlen1, ?_⟩
  intro i hi h2i
  have hr1 : i < res1.length := by omega
  obtain ⟨ht1, hx1, hs1, v, hfv, hev⟩ := hidx1 i hi hr1
  obtain ⟨ht2, hx2, he2, s, hgs, hss⟩ := hidx2 i hr1 h2i
  exact ⟨ht2.trans ht1, hx2.trans hx1, ⟨v, he2.trans hev⟩, ⟨s, hss⟩⟩

/-- Witness for C10 at a concrete successful pipeline run. -/
theorem loops_preserve_title_text_order_witness :
    ([⟨("A").toList, ("x").toList, some [(1 : ℚ)], none⟩] : List Article).length
      = ([⟨("A").toList, ("x").toList, none, none⟩] : List Article).length ∧
    ([⟨("A").toList, ("x").toList, some [(1 : ℚ)], some ("q").toList⟩] : List Article).length
      = ([⟨("A").toList, ("x").toList, none, none⟩] : List Article).length ∧
    ∀ i (hi : i < ([⟨("A").toList, ("x").toList, none, none⟩] : List Article).length)
      (h2i : i < ([⟨("A").toList, ("x").toList, some [(1 : ℚ)], some ("q").toList⟩] : List Article).length),
      (([⟨("A").toList, ("x").toList, some [(1 : ℚ)], some ("q").toList⟩] : List Article).get ⟨i, h2i⟩).title
          = (([⟨("A").toList, ("x").toList, none, none⟩] : List Article).get ⟨i, hi⟩).title
      ∧ (([⟨("A").toList, ("x").toList, some [(1 : ℚ)], some ("q").toList⟩] : List Article).get ⟨i, h2i⟩).text
          = (([⟨("A").toList, ("x").toList, none, none⟩] : List Article).get ⟨i, hi⟩).text
      ∧ (∃ v, (([⟨("A").toList, ("x").toList, some [(1 : ℚ)], some ("q").toList⟩] : List Article).get ⟨i, h2i⟩).embedding = some v)
      ∧ (∃ s, (([⟨("A").toList, ("x").toList, some [(1 : ℚ)], some ("q").toList⟩] : List Article).get ⟨i, h2i⟩).summary = some s) := by
  exact loops_preserve_title_text_order (E := Unit)
    (fun _ => Except.ok [(1 : ℚ)]) (fun _ => Except.ok ("q").toList)
    [⟨("A").toList, ("x").toList, none, none⟩]
    [⟨("A").toList, ("x").toList, some [(1 : ℚ)], none⟩]
    [⟨("A").toList, ("x").toList, some [(1 : ℚ)], some ("q").toList⟩]
    [⟨("A").toList, ("x").toList, none, none⟩]
    [⟨("A").toList, ("x").toList, some [(1 : ℚ)], none⟩]
    (by rfl) (by rfl)

/-! ## Helper lemmas: the clustering engine -/

theorem argminAux_lt :
    ∀ (xs : List Frac) (i best : Nat) (bv : Frac), best < i →
      argminAux xs i best bv < i + xs.length
  | [], i, best, bv, h => by simpa using h
  | x :: xs, i, best, bv, h => by
    unfold argminAux
    by_cases hx : fracLt x bv = true
    · rw [if_pos hx]
      have := argminAux_lt xs (i + 1) i x (by omega)
      simpa [Nat.add_comm, Nat.add_assoc, Nat.add_left_comm] using this
    · rw [if_neg hx]
      have := argminAux_lt xs (i + 1) best bv (by omega)
      simpa [Nat.add_comm, Nat.add_assoc, Nat.add_left_comm] using this

theorem assignLabel_lt (cents : List Centroid) (x : Vec) (h : cents ≠ []) :
    assignLabel cents x < cents.length := by
  cases cents with
  | nil => exact absurd rfl h
  | cons c cs =>
    show argminAux (cs.map (distFrac x)) 1 0 (distFrac x c) < (c :: cs).length
    have := argminAux_lt (cs.map (distFrac x)) 1 0 (distFrac x c) (by omega)
    simpa [Nat.add_comm] using this

theorem length_updateCentroids (data : List Vec) (cents : List Centroid) :
    (updateCentroids data cents).length = cents.length := by
  simp [updateCentroids]

theorem length_lloydIter :
    ∀ (n : Nat) (data : List Vec) (cents : List Centroid),
      (lloydIter n data cents).length = cents.length
  | 0, _, _ => rfl
  | n + 1, data, cents => by
    show (lloydIter n data (updateCentroids data cents)).length = _
    rw [length_lloydIter n data (updateCentroids data cents),
      length_updateCentroids]

theorem length_initCentroids (seed K : Nat) (data : List Vec)
    (hK : 1 ≤ K) (hKN : K ≤ data.length) :
    (initCentroids seed K data).length = K := by
  have hpos : 0 < data.length := by omega
  have hmod : seed % data.length < data.length := Nat.mod_lt seed hpos
  simp only [initCentroids, List.length_map, List.length_take,
    List.length_append, List.length_drop]
  omega

theorem foldl_set_length (ps : List (Nat × Nat)) :
    ∀ (ls : List Nat),
      (ps.foldl (fun ls p => ls.set p.2 p.1) ls).length = ls.length := by
  induction ps with
  | nil => intro ls; rfl
  | cons p ps ih =>
    intro ls
    show (ps.foldl (fun ls p => ls.set p.2 p.1) (ls.set p.2 p.1)).length = _
    rw [ih (ls.set p.2 p.1), List.length_set]

theorem foldl_set_lt (K : Nat) (ps : List (Nat × Nat)) :
    ∀ (ls : List Nat), (∀ p ∈ ps, p.1 < K) → (∀ l ∈ ls, l < K) →
      ∀ l ∈ ps.foldl (fun ls p => ls.set p.2 p.1) ls, l < K := by
  induction ps with
  | nil => intro ls _ hls l hl; exact hls l hl
  | cons p ps ih =>
    intro ls hps hls l hl
    refine ih (ls.set p.2 p.1) (fun q hq => hps q (by simp [hq])) ?_ l hl
    intro x hx
    rcases List.mem_or_eq_of_mem_set hx with hx' | hx'
    · exact hls x hx'
    · exact hx' ▸ hps p (by simp)

theorem foldl_set_getD_of_ne (ps : List (Nat × Nat)) :
    ∀ (ls : List Nat) (i : Nat), (∀ p ∈ ps, p.2 ≠ i) →
      (ps.foldl (fun ls p => ls.set p.2 p.1) ls).getD i 0 = ls.getD i 0 := by
  induction ps with
  | nil => intro ls i _; rfl
  | cons p ps ih =>
    intro ls i hne
    show (ps.foldl (fun ls p => ls.set p.2 p.1) (ls.set p.2 p.1)).getD i 0 = _
    rw [ih (ls.set p.2 p.1) i (fun q hq => hne q (by simp [hq]))]
    by_cases hi : i < ls.length
    · rw [List.getD_eq_getElem _ _ (by simpa using hi),
        List.getD_eq_getElem _ _ hi]
      exact List.getElem_set_ne (hne p (by simp)) _
    · rw [List.getD_eq_default _ _ (by simpa using hi),
        List.getD_eq_default _ _ (by omega)]

theorem zip_pairwise_snd_ne :
    ∀ (ms ss : List Nat), ss.Nodup →
      (ms.zip ss).Pairwise (fun p q => p.2 ≠ q.2)
  | [], _, _ => by simp
  | _ :: _, [], _ => by simp
  | m :: ms, s :: ss, h => by
    rw [List.nodup_cons] at h
    refine List.Pairwise.cons ?_ (zip_pairwise_snd_ne ms ss h.2)
    intro q hq
    have := (List.of_mem_zip hq).2
    intro hc
    exact h.1 (by rw [← hc] at this; exact this)

theorem foldl_set_assign (ps : List (Nat × Nat)) :
    ∀ (ls : List Nat), ps.Pairwise (fun p q => p.2 ≠ q.2) →
      (∀ p ∈ ps, p.2 < ls.length) →
      ∀ p ∈ ps, (ps.foldl (fun ls p => ls.set p.2 p.1) ls).getD p.2 0 = p.1 := by
  induction ps with
  | nil => intro ls _ _ p hp; simp at hp
  | cons q ps ih =>
    intro ls hpw hlen p hp
    rw [List.pairwise_cons] at hpw
    rcases List.mem_cons.mp hp with hp | hp
    · subst hp
      show (ps.foldl (fun ls p => ls.set p.2 p.1) (ls.set p.2 p.1)).getD p.2 0 = _
      rw [foldl_set_getD_of_ne ps (ls.set p.2 p.1) p.2
        (fun r hr => Ne.symm (hpw.1 r hr))]
      have hlt : p.2 < (ls.set p.2 p.1).length := by
        rw [List.length_set]; exact hlen p (by simp)
      rw [List.getD_eq_getElem _ _ hlt]
      exact List.getElem_set_self hlt
    · exact ih (ls.set q.2 q.1) hpw.2
        (fun r hr => by rw [List.length_set]; exact hlen r (by simp [hr])) p hp

theorem exists_first_occurrence {j : Nat} :
    ∀ {labels : List Nat}, j ∈ labels →
      ∃ i, i < labels.length ∧ labels.getD i 0 = j ∧ j ∉ labels.take i := by
  intro labels
  induction labels with
  | nil => intro h; simp at h
  | cons a tl ih =>
    intro h
    by_cases ha : a = j
    · exact ⟨0, by simp, by simp [ha], by simp⟩
    · have hj : j ∈ tl := by
        rcases List.mem_cons.mp h with h' | h'
        · exact absurd h'.symm ha
        · exact h'
      obtain ⟨i, hi, hget, hmem⟩ := ih hj
      refine ⟨i + 1, by simpa using hi, by simpa using hget, ?_⟩
      rw [List.take_succ_cons]
      intro hc
      rcases List.mem_cons.mp hc with h' | h'
      · exact ha h'.symm
      · exact hmem h'

theorem length_filter_add_length_filter_not {α : Type} (p : α → Bool) :
    ∀ (l : List α),
      (l.filter p).length + (l.filter (fun a => !(p a))).length = l.length
  | [] => rfl
  | a :: l => by
    have ih := length_filter_add_length_filter_not p l
    by_cases h : p a = true
    · rw [List.filter_cons_of_pos h, List.filter_cons_of_neg (by simp [h])]
      simp only [List.length_cons]
      omega
    · rw [List.filter_cons_of_neg h,
        List.filter_cons_of_pos (by simp [Bool.not_eq_true] at h; simp [h])]
      simp only [List.length_cons]
      omega

theorem length_missing_le_length_surplus (K : Nat) (labels : List Nat)
    (hvals : ∀ l ∈ labels, l < K) (hKN : K ≤ labels.length) :
    (missingClusters K labels).length ≤ (surplusIndices labels).length := by
  classical
  set N := labels.length with hN
  set p : Nat → Bool := fun i => decide (labels.getD i 0 ∈ labels.take i) with hp
  set firstOccs : List Nat := (List.range N).filter (fun i => !(p i)) with hF
  set present : List Nat :=
    (List.range K).filter (fun j => decide (j ∈ labels)) with hP
  have hSF : (surplusIndices labels).length + firstOccs.length = N := by
    rw [hF]
    have := length_filter_add_length_filter_not p (List.range N)
    simpa [surplusIndices, hp] using this
  have hPM : present.length + (missingClusters K labels).length = K := by
    rw [hP]
    have := length_filter_add_length_filter_not
      (fun j => decide (j ∈ labels)) (List.range K)
    simpa [missingClusters] using this
  have hFnodup : firstOccs.Nodup := (List.nodup_range N).filter _
  have hPnodup : present.Nodup := (List.nodup_range K).filter _
  -- the label value is injective on first-occurrence indices
  have key : ∀ a b : Nat, a ∈ firstOccs → b ∈ firstOccs → a < b →
      labels.getD a 0 ≠ labels.getD b 0 := by
    intro a b ha hb hab heq
    rw [hF, List.mem_filter, List.mem_range] at ha hb
    have haN : a < labels.length := hN ▸ ha.1
    have hel : a < (labels.take b).length := by
      rw [List.length_take]
      omega
    have hmemtake : (labels.take b).get ⟨a, hel⟩ ∈ labels.take b :=
      List.get_mem _ _ _
    have hgt : (labels.take b).get ⟨a, hel⟩ = labels.get ⟨a, haN⟩ := by
      simp [List.getElem_take]
    have hpb : p b = true := by
      rw [hp]
      rw [decide_eq_true_eq, ← heq, List.getD_eq_getElem labels 0 haN]
      rw [hgt] at hmemtake
      simpa using hmemtake
    have hpb' : p b = false := by simpa using hb.2
    rw [hpb] at hpb'
    exact absurd hpb' (by simp)
  have hinj : Set.InjOn (fun i => labels.getD i 0) ↑firstOccs.toFinset := by
    intro i hi i' hi' heq
    simp only [Finset.mem_coe, List.mem_toFinset] at hi hi'
    simp only at heq
    by_contra hne
    rcases Nat.lt_or_ge i i' with hlt | hge
    · exact key i i' hi hi' hlt heq
    · exact key i' i hi' hi (by omega) heq.symm
  have himage : firstOccs.toFinset.image (fun i => labels.getD i 0)
      ⊆ present.toFinset := by
    intro v hv
    rw [Finset.mem_image] at hv
    obtain ⟨i, hi, hvi⟩ := hv
    rw [List.mem_toFinset, hF, List.mem_filter, List.mem_range] at hi
    have hiN : i < N := hi.1
    have hmem : labels.getD i 0 ∈ labels := by
      rw [List.getD_eq_getElem _ _ (hN ▸ hiN)]
      exact List.getElem_mem _
    have hlt : labels.getD i 0 < K := hvals _ hmem
    rw [List.mem_toFinset, hP, List.mem_filter, List.mem_range]
    exact ⟨hvi ▸ hlt, by rw [← hvi]; simpa using hmem⟩
  have hFP : firstOccs.length ≤ present.length := by
    have h1 : firstOccs.toFinset.card = firstOccs.length :=
      List.toFinset_card_of_nodup hFnodup
    have h2 : present.toFinset.card = present.length :=
      List.toFinset_card_of_nodup hPnodup
    have h3 := Finset.card_image_of_injOn hinj
    have h4 := Finset.card_le_card himage
    omega
  omega

theorem repairLabels_props (K : Nat) (labels : List Nat)
    (hvals : ∀ l ∈ labels, l < K) (hKN : K ≤ labels.length) :
    (repairLabels K labels).length = labels.length
    ∧ (∀ l ∈ repairLabels K labels, l < K)
    ∧ (∀ j, j < K → j ∈ repairLabels K labels) := by
  classical
  set M := missingClusters K labels with hM
  set S := surplusIndices labels with hS
  have hSsub : ∀ s ∈ S, s < labels.length := by
    intro s hs
    rw [hS] at hs
    unfold surplusIndices at hs
    rw [List.mem_filter, List.mem_range] at hs
    exact hs.1
  have hMsub : ∀ m ∈ M, m < K := by
    intro m hm
    rw [hM] at hm
    unfold missingClusters at hm
    rw [List.mem_filter, List.mem_range] at hm
    exact hm.1
  have hlen : (repairLabels K labels).length = labels.length :=
    foldl_set_length _ labels
  refine ⟨hlen, ?_, ?_⟩
  · apply foldl_set_lt K (M.zip S) labels
    · intro p hp
      exact hMsub p.1 (List.of_mem_zip (by simpa using hp)).1
    · exact hvals
  · intro j hj
    by_cases hjmem : j ∈ labels
    · -- j already present: its first occurrence is not a surplus index,
      -- so the repair never overwrites it
      obtain ⟨i, hi, hget, htake⟩ := exists_first_occurrence hjmem
      have hiS : i ∉ S := by
        rw [hS]
        unfold surplusIndices
        rw [List.mem_filter]
        rintro ⟨-, hdec⟩
        rw [decide_eq_true_eq, hget] at hdec
        exact htake hdec
      have hne : ∀ p ∈ M.zip S, p.2 ≠ i := by
        intro p hp hc
        exact hiS (hc ▸ (List.of_mem_zip (by simpa using hp)).2)
      have hgd : (repairLabels K labels).getD i 0 = j := by
        show ((M.zip S).foldl (fun ls p => ls.set p.2 p.1) labels).getD i 0 = j
        rw [foldl_set_getD_of_ne (M.zip S) labels i hne, hget]
      have hilen : i < (repairLabels K labels).length := by rw [hlen]; exact hi
      rw [← hgd, List.getD_eq_getElem _ _ hilen]
      exact List.getElem_mem _
    · -- j missing: the repair assigns it to a surplus index
      have hjM : j ∈ M := by
        rw [hM]
        unfold missingClusters
        rw [List.mem_filter, List.mem_range]
        exact ⟨hj, by simpa using hjmem⟩
      obtain ⟨tIdx, htIdx, hMt⟩ := List.mem_iff_getElem.mp hjM
      have hMS : M.length ≤ S.length :=
        length_missing_le_length_surplus K labels hvals hKN
      have htS : tIdx < S.length := by omega
      have htz : tIdx < (M.zip S).length := by
        rw [List.length_zip]
        omega
      have hpz : (M.zip S).get ⟨tIdx, htz⟩ = (M.get ⟨tIdx, htIdx⟩, S.get ⟨tIdx, htS⟩) := by
        simp [List.getElem_zip]
      have hpmem : (M.get ⟨tIdx, htIdx⟩, S.get ⟨tIdx, htS⟩) ∈ M.zip S := by
        rw [← hpz]
        exact List.get_mem _ _ _
      have hSnodup : S.Nodup := by
        rw [hS]
        exact (List.nodup_range _).filter _
      have hplen : ∀ p ∈ M.zip S, p.2 < labels.length := by
        intro p hp
        exact hSsub p.2 (List.of_mem_zip (by simpa using hp)).2
      have hassign := foldl_set_assign (M.zip S) labels
        (zip_pairwise_snd_ne M S hSnodup) hplen
        (M.get ⟨tIdx, htIdx⟩, S.get ⟨tIdx, htS⟩) hpmem
      have hgd : (repairLabels K labels).getD (S.get ⟨tIdx, htS⟩) 0 = j := by
        show ((M.zip S).foldl (fun ls p => ls.set p.2 p.1) labels).getD _ 0 = j
        rw [hassign]
        show M.get ⟨tIdx, htIdx⟩ = j
        simpa using hMt
      have hslen : S.get ⟨tIdx, htS⟩ < (repairLabels K labels).length := by
        rw [hlen]
        exact hSsub _ (List.get_mem _ _ _)
      rw [← hgd, List.getD_eq_getElem _ _ hslen]
      exact List.getElem_mem _

theorem pickBest_mem :
    ∀ (cs : List (List Nat × Frac)) (c : List Nat × Frac),
      pickBest c cs ∈ c :: cs
  | [], c => by simp [pickBest]
  | x :: xs, c => by
    show (if fracLt x.2 c.2 then pickBest x xs else pickBest c xs)
      ∈ c :: x :: xs
    by_cases h : fracLt x.2 c.2 = true
    · rw [if_pos h]
      rcases List.mem_cons.mp (pickBest_mem xs x) with h' | h'
      · simp [h']
      · simp [List.mem_cons.mpr (Or.inr h')]
    · rw [if_neg h]
      rcases List.mem_cons.mp (pickBest_mem xs c) with h' | h'
      · simp [h']
      · simp [List.mem_cons.mpr (Or.inr h')]

theorem kmeansOnce_props (seed K : Nat) (data : List Vec)
    (hK : 1 ≤ K) (hKN : K ≤ data.length) :
    ((kmeansOnce seed K data).1).length = data.length
    ∧ (∀ l ∈ (kmeansOnce seed K data).1, l < K)
    ∧ (∀ j, j < K → j ∈ (kmeansOnce seed K data).1) := by
  have hcl : (lloydIter kmeansMaxIter data (initCentroids seed K data)).length
      = K := by
    rw [length_lloydIter, length_initCentroids seed K data hK hKN]
  set cents := lloydIter kmeansMaxIter data (initCentroids seed K data) with hc
  have hcne : cents ≠ [] := by
    intro h
    rw [h] at hcl
    simp at hcl
    omega
  have hraw : ∀ l ∈ data.map (assignLabel cents), l < K := by
    intro l hl
    rw [List.mem_map] at hl
    obtain ⟨x, hx, rfl⟩ := hl
    rw [← hcl]
    exact assignLabel_lt cents x hcne
  have hKN2 : K ≤ (data.map (assignLabel cents)).length := by
    rw [List.length_map]
    exact hKN
  obtain ⟨h1, h2, h3⟩ :=
    repairLabels_props K (data.map (assignLabel cents)) hraw hKN2
  refine ⟨?_, h2, h3⟩
  show (repairLabels K (data.map (assignLabel cents))).length = data.length
  rw [h1, List.length_map]

theorem kmeansLabels_props (seed K : Nat) (data : List Vec)
    (hK : 1 ≤ K) (hKN : K ≤ data.length) :
    (kmeansLabels seed K data).length = data.length
    ∧ (∀ l ∈ kmeansLabels seed K data, l < K)
    ∧ (∀ j, j < K → j ∈ kmeansLabels seed K data) := by
  have hmem := pickBest_mem
    ((List.range (kmeansNInit - 1)).map (fun t => kmeansOnce (seed + t + 1) K data))
    (kmeansOnce seed K data)
  have hkl : kmeansLabels seed K data
      = (pickBest (kmeansOnce seed K data)
          ((List.range (kmeansNInit - 1)).map
            (fun t => kmeansOnce (seed + t + 1) K data))).1 := rfl
  rcases List.mem_cons.mp hmem with hcase | hcase
  · rw [hkl, hcase]
    exact kmeansOnce_props seed K data hK hKN
  · rw [List.mem_map] at hcase
    obtain ⟨t, ht, heq⟩ := hcase
    rw [hkl, ← heq]
    exact kmeansOnce_props (seed + t + 1) K data hK hKN

/-! ## Claim theorems: the clustering engine -/

/-- C1: for every seed and every input of N vectors with 1 ≤ K ≤ N, the
engine succeeds and returns one cluster label below K per input item (each
document in exactly one cluster, none omitted or duplicated), with every
one of the K clusters non-empty — the K label preimages are exactly K
non-empty groups whose disjoint union is the N items. -/
theorem kmeans_partition (seed K : Nat) (data : List Vec)
    (hK : 1 ≤ K) (hKN : K ≤ data.length) :
    ∃ labels, kmeansFit seed K data = Except.ok labels
      ∧ labels.length = data.length
      ∧ (∀ l ∈ labels, l < K)
      ∧ (∀ j, j < K → j ∈ labels) := by
  obtain ⟨h1, h2, h3⟩ := kmeansLabels_props seed K data hK hKN
  refine ⟨kmeansLabels seed K data, ?_, h1, h2, h3⟩
  unfold kmeansFit
  rw [if_neg]
  rintro (h | h) <;> omega

/-- Witness for C1 at K = 2 on two one-dimensional vectors. -/
theorem kmeans_partition_witness :
    ∃ labels, kmeansFit 0 2 [[(0 : Int)], [(1 : Int)]] = Except.ok labels
      ∧ labels.length = ([[(0 : Int)], [(1 : Int)]] : List Vec).length
      ∧ (∀ l ∈ labels, l < 2)
      ∧ (∀ j, j < 2 → j ∈ labels) :=
  kmeans_partition 0 2 [[(0 : Int)], [(1 : Int)]] (by decide) (by decide)

/-- C2: for K larger than the number of input vectors, and for empty input,
the engine fails with `invalidConfiguration` instead of returning a
partition with empty groups. -/
theorem kmeans_invalid_configuration (seed K : Nat) (data : List Vec)
    (h : data = [] ∨ data.length < K) :
    kmeansFit seed K data = Except.error KMeansError.invalidConfiguration := by
  unfold kmeansFit
  rcases h with h | h
  · subst h
    by_cases hK : K = 0
    · rw [if_pos (Or.inl hK)]
    · rw [if_pos (Or.inr (by simp only [List.length_nil]; omega))]
  · rw [if_pos (Or.inr h)]

/-- Witness for C2 at K = 3 on two vectors. -/
theorem kmeans_invalid_configuration_witness :
    kmeansFit 0 3 [[(0 : Int)], [(1 : Int)]]
      = Except.error KMeansError.invalidConfiguration :=
  kmeans_invalid_configuration 0 3 [[(0 : Int)], [(1 : Int)]]
    (Or.inr (by decide))

set_option maxRecDepth 40000 in
/-- C3: the engine is a deterministic function of the caller-supplied seed
and the input — two runs with the same seed and data return the same
partition — while different seeds can return different partitions, so
without a fixed seed results may vary run-to-run. -/
theorem kmeans_seed_determinism :
    (∀ (seed K : Nat) (data : List Vec) (r1 r2 : Except KMeansError (List Nat)),
        kmeansFit seed K data = r1 → kmeansFit seed K data = r2 → r1 = r2)
    ∧ (∃ (s1 s2 K : Nat) (data : List Vec),
        kmeansFit s1 K data ≠ kmeansFit s2 K data) := by
  constructor
  · intro seed K data r1 r2 h1 h2
    rw [← h1, ← h2]
  · exact ⟨0, 1, 2, [[0], [1]], by decide⟩

end TextClustering
